import Mathlib

/-!
# Verification of the HRV capstone pipeline

Shallow embedding of the quality-gated HRV extraction pipeline of the
Capstone repository: the statistics helpers of
`react_native/src/utils/helpers.ts`, the Arduino single-producer /
single-consumer sample ring of the ESP32 sketch, the stubbed
`JavaScriptHRVProcessor.processData`, and the quality-gated analysis
pipeline of the Python HRV API.  The Python implementation (`main.py`)
is not part of the source tree — only its README documentation is — so
those components are modelled from the specification, as marked on each
definition.  Amplitudes, rates and intervals are embedded as rationals;
square roots land in the reals.
-/

namespace Capstone


/-! ## Statistics helpers (react_native/src/utils/helpers.ts) -/

/-- Embeds `average` of helpers.ts: returns 0 on the empty list, else the
arithmetic mean `values.reduce(sum) / values.length`. -/

def average (values : List ℚ) : ℚ :=
  if values.length = 0 then 0 else values.sum / values.length

/-- Embeds the `squareDiffs` intermediate of `standardDeviation` in helpers.ts:
`values.map((value) => Math.pow(value - avg, 2))`. -/

def squareDiffs (values : List ℚ) : List ℚ :=
  values.map fun value => (value - average values) ^ 2

/-- The quantity under the square root in helpers.ts `standardDeviation`,
i.e. the population variance `average(squareDiffs)`.  Kept rational so that
the segment-quality checks below stay decidable. -/

def variance (values : List ℚ) : ℚ :=
  average (squareDiffs values)

/-- Embeds `standardDeviation` of helpers.ts: 0 on the empty list, else
`Math.sqrt(average(squareDiffs))`. -/

noncomputable def standardDeviation (values : List ℚ) : ℝ :=
  if values.length = 0 then 0 else Real.sqrt (variance values)

/-- Embeds `isPhysiologicallyValid` of helpers.ts:
`value >= min && value <= max`. -/

def isPhysiologicallyValid (value mi ma : ℚ) : Bool :=
  decide (mi ≤ value) && decide (value ≤ ma)

/-! ## Arduino sample ring (src/unnamed/part_000, `readPulseSensor`)

The ESP32 sketch hands samples from a 100 Hz timer loop to the consumer
through a fixed array `sampleBuffer[64]` with `uint8_t` indices
`sampleHead` / `sampleTail`.  The producer half of `readPulseSensor`
computes `nextHead = (sampleHead + 1) % SAMPLE_BUFFER_SIZE` and stores the
incoming sample only when `nextHead != sampleTail`; the consumer half reads
at `sampleTail` when `sampleTail != sampleHead`. -/

/-- Constant `SAMPLE_BUFFER_SIZE` of the ESP32 sketch. -/

def SAMPLE_BUFFER_SIZE : ℕ := 64

/-- State of the sketch's sample handoff buffer: the array contents and the
two index variables (stored as `uint8_t` in the source; they only ever hold
values below 64, which `RingState.WF` records). -/

structure RingState where
  sampleBuffer : Fin SAMPLE_BUFFER_SIZE → ℕ
  sampleHead : ℕ
  sampleTail : ℕ

/-- Well-formedness: both indices are in range, as every assignment in the
source is of the shape `(i + 1) % SAMPLE_BUFFER_SIZE` starting from 0. -/

def RingState.WF (s : RingState) : Prop :=
  s.sampleHead < SAMPLE_BUFFER_SIZE ∧ s.sampleTail < SAMPLE_BUFFER_SIZE

/-- Number of stored, not yet consumed samples. -/

def RingState.count (s : RingState) : ℕ :=
  (s.sampleHead + SAMPLE_BUFFER_SIZE - s.sampleTail) % SAMPLE_BUFFER_SIZE

/-- Embeds the producer half of `readPulseSensor`:
`nextHead = (sampleHead + 1) % SAMPLE_BUFFER_SIZE;`
`if (nextHead != sampleTail) { sampleBuffer[sampleHead] = s; sampleHead = nextHead; }`.
When the guard fails the incoming sample is discarded and the state is
untouched.  The write targets index `sampleHead`; for an in-range head
(`RingState.WF`) the pointwise update below is exactly that store. -/

def pushSample (s : RingState) (x : ℕ) : RingState :=
  let nextHead := (s.sampleHead + 1) % SAMPLE_BUFFER_SIZE
  if nextHead ≠ s.sampleTail then
    { s with
      sampleBuffer := fun i => if (i : ℕ) = s.sampleHead then x else s.sampleBuffer i
      sampleHead := nextHead }
  else s

/-- Embeds the consumer half of `readPulseSensor`:
`if (sampleTail != sampleHead) { s = sampleBuffer[sampleTail]; sampleTail = (sampleTail + 1) % SAMPLE_BUFFER_SIZE; }`. -/

def popSample (s : RingState) : Option ℕ × RingState :=
  if s.sampleTail ≠ s.sampleHead then
    (some (s.sampleBuffer ⟨s.sampleTail % SAMPLE_BUFFER_SIZE, Nat.mod_lt _ (by decide)⟩),
      { s with sampleTail := (s.sampleTail + 1) % SAMPLE_BUFFER_SIZE })
  else (none, s)

/-! ## Quality-gated analysis pipeline (Python HRV API)

The FastAPI implementation (`main.py`) of the `POST /analyze` endpoint is
absent from the source tree — only its README documentation
(src/unnamed/part_001 and part_002) is present — so the pipeline below is
modelled from the specification and that documentation.  Peak detection and
the final RMSSD computation are performed by the external NeuroKit2 library,
not by repository code, so they enter the model as function parameters. -/

/-- Modelled from the spec: flatline check threshold on the segment standard
deviation, default 1.0 (missing `main.py`). -/

def flatlineStdThreshold : ℚ := 1

/-- Modelled from the spec: clipping check threshold on the fraction of
distinct amplitude values, default 2% (missing `main.py`). -/

def uniqueFractionThreshold : ℚ := 1 / 50

/-- Modelled from the spec: extreme-jump threshold on the maximum absolute
sample-to-sample delta, default 2000 (missing `main.py`). -/

def jumpThreshold : ℚ := 2000

/-- Modelled from the spec: minimum plausible peaks per 3-second segment,
default 2, i.e. 40 bpm (missing `main.py`). -/

def minPeaksPerSegment : ℕ := 2

/-- Modelled from the spec: maximum plausible peaks per 3-second segment,
default 6, i.e. 120 bpm (missing `main.py`). -/

def maxPeaksPerSegment : ℕ := 6

/-- Modelled from the spec: default quality-gate tolerance `maxBadSegments`
(missing `main.py`). -/

def maxBadSegmentsDefault : ℕ := 0

/-- Modelled from the spec: minimum window duration in seconds, default 10
(missing `main.py`). -/

def minDurationSeconds : ℚ := 10

/-- Modelled from the spec: samples per full 3-second segment,
`segmentSampleCount = round(3 * samplingRate)` (missing `main.py`). -/

def segmentSampleCount (samplingRate : ℚ) : ℕ :=
  (round (3 * samplingRate)).toNat

/-- Modelled from the spec: partition of the window into full 3-second
segments; any trailing partial segment is excluded from scoring (missing
`main.py`). -/

def segmentize (samples : List ℚ) (samplingRate : ℚ) : List (List ℚ) :=
  let k := segmentSampleCount samplingRate
  (List.range (samples.length / k)).map fun i => (samples.drop (i * k)).take k

/-- Modelled from the spec: flatline check — segment standard deviation
below `flatlineStdThreshold` (missing `main.py`).  Stated on the rational
variance against the squared threshold so the check stays decidable;
`flatlineBad_iff_std` below shows this is the same comparison on the
helpers.ts standard deviation. -/

def flatlineBad (seg : List ℚ) : Bool :=
  decide (variance seg < flatlineStdThreshold ^ 2)

/-- Modelled from the spec: clipping check — fraction of distinct amplitude
values below `uniqueFractionThreshold` (missing `main.py`). -/

def clippingBad (seg : List ℚ) : Bool :=
  decide ((seg.dedup.length : ℚ) < uniqueFractionThreshold * seg.length)

/-- Maximum absolute sample-to-sample delta within a segment. -/

def maxJump (seg : List ℚ) : ℚ :=
  (List.zipWith (fun a b => |a - b|) seg seg.tail).foldr max 0

/-- Modelled from the spec: extreme-jump check — maximum absolute
sample-to-sample delta above `jumpThreshold` (missing `main.py`). -/

def jumpBad (seg : List ℚ) : Bool :=
  decide (jumpThreshold < maxJump seg)

/-- Modelled from the spec: peak-implausibility check — the number of
detected peaks inside the segment falls outside
`[minPeaksPerSegment, maxPeaksPerSegment]`; the peak detector itself is the
external NeuroKit2 call, passed in as `countPeaks` (missing `main.py`). -/

def peaksBad (countPeaks : List ℚ → ℕ) (seg : List ℚ) : Bool :=
  decide (countPeaks seg < minPeaksPerSegment) ||
    decide (maxPeaksPerSegment < countPeaks seg)

/-- Per-segment quality verdict of the SegmentQualityAnalyzer. -/

structure SegmentQualityResult where
  index : ℕ
  passed : Bool
deriving DecidableEq

/-- Modelled from the spec: a segment passes quality scoring exactly when
none of the four independent checks fails (missing `main.py`). -/

def scoreSegment (countPeaks : List ℚ → ℕ) (seg : List ℚ) : Bool :=
  !(flatlineBad seg || clippingBad seg || jumpBad seg ||
    peaksBad countPeaks seg)

/-- Modelled from the spec: ordered per-segment quality results, one per
full segment, preserving segment order (missing `main.py`). -/

def analyzeSegments (countPeaks : List ℚ → ℕ) (segs : List (List ℚ)) :
    List SegmentQualityResult :=
  segs.enum.map fun p => ⟨p.1, scoreSegment countPeaks p.2⟩

/-- The spec's QualityDecision value object. -/

structure QualityDecision where
  accepted : Bool
  badSegmentCount : ℕ
  maxAllowed : ℕ
deriving DecidableEq

/-- Modelled from the spec: `badSegments = count(result.passed == false)`
(missing `main.py`). -/

def badSegmentsOf (results : List SegmentQualityResult) : ℕ :=
  results.countP fun r => !r.passed

/-- Modelled from the spec: the QualityGate decision,
`accepted = badSegments <= maxBadSegments` (missing `main.py`). -/

def qualityGate (results : List SegmentQualityResult) (maxBadSegments : ℕ) :
    QualityDecision :=
  ⟨decide (badSegmentsOf results ≤ maxBadSegments), badSegmentsOf results,
    maxBadSegments⟩

/-- Error classification of the pipeline failure taxonomy. -/

inductive ErrorKind where
  | configuration
  | insufficientData
  | poorSignalQuality
  | computation
deriving DecidableEq

/-- Failure payload of the `POST /analyze` endpoint: classification, the
human-readable message, and the diagnostic `bad_segments` count. -/

structure AnalyzeError where
  kind : ErrorKind
  error : String
  badSegments : ℕ
deriving DecidableEq

/-- Success payload of the `POST /analyze` endpoint. -/

structure AnalyzeSuccess where
  rmssd : ℚ
  badSegments : ℕ
deriving DecidableEq

/-- The rejection diagnostic of the API README:
`Poor signal quality: 3 bad segments detected (max allowed: 2)`. -/

def poorQualityMessage (bad maxAllowed : ℕ) : String :=
  "Poor signal quality: " ++ toString bad ++
    " bad segments detected (max allowed: " ++ toString maxAllowed ++ ")"

/-- Modelled from the spec: the batch pipeline of the missing `main.py`,
staged per the spec's validation order — configuration bounds, minimum
duration, quality gate, then metric computation.  `countPeaks` and
`computeRmssd` stand for the external NeuroKit2 peak detection and RMSSD
computation, which are not repository code; `computeRmssd` returns `none`
when that computation fails. -/

def runPipeline (countPeaks : List ℚ → ℕ) (computeRmssd : List ℚ → Option ℚ)
    (ppgData : List ℚ) (samplingRate : ℚ) (maxBadSegments : ℕ) :
    Except AnalyzeError AnalyzeSuccess :=
  if ¬(0 < samplingRate ∧ samplingRate ≤ 1000) then
    .error ⟨.configuration,
      "Sampling rate must be greater than 0 and at most 1000", 0⟩
  else if (ppgData.length : ℚ) < samplingRate * minDurationSeconds then
    .error ⟨.insufficientData,
      "Insufficient data: at least 10 seconds of samples required", 0⟩
  else
    let results := analyzeSegments countPeaks (segmentize ppgData samplingRate)
    let d := qualityGate results maxBadSegments
    if d.accepted then
      match computeRmssd ppgData with
      | some r => .ok ⟨r, d.badSegmentCount⟩
      | none => .error ⟨.computation, "HRV calculation failed",
          d.badSegmentCount⟩
    else
      .error ⟨.poorSignalQuality,
        poorQualityMessage d.badSegmentCount d.maxAllowed, d.badSegmentCount⟩

/-! ## IntervalExtractor, ArtifactRejector and RMSSD

`JavaScriptHRVProcessor.ts` declares `calculateRRIntervals`,
`removeArtifacts`, `calculateRMSSD` only as commented-out sketches, and the
Python `hrv_processor.py` is not in the source tree, so the definitions
below are modelled from the specification, with the hard physiological
bounds delegated to the helpers.ts `isPhysiologicallyValid` embedding. -/

/-- Modelled from the spec: the IntervalExtractor,
`RR[i] = timestamp(peak[i+1]) - timestamp(peak[i])` in milliseconds over
consecutive peak pairs (missing concrete `calculateRRIntervals`). -/

def calculateRRIntervals (peakTimes : List ℚ) : List ℚ :=
  List.zipWith (fun b a => b - a) peakTimes.tail peakTimes

/-- Successive differences `RR[i+1] - RR[i]` of an interval sequence. -/

def successiveDiffs (rr : List ℚ) : List ℚ :=
  List.zipWith (fun b a => b - a) rr.tail rr

/-- Modelled from the spec:
`RMSSD = sqrt(mean((RR[i+1] - RR[i])^2))` (missing concrete
`calculateRMSSD`). -/

noncomputable def calculateRMSSD (rr : List ℚ) : ℝ :=
  Real.sqrt (average ((successiveDiffs rr).map fun d => d ^ 2))

/-- Modelled from the spec: hard lower physiological RR bound, 300 ms. -/

def minRR : ℚ := 300

/-- Modelled from the spec: hard upper physiological RR bound, 2000 ms. -/

def maxRR : ℚ := 2000

/-- Modelled from the spec: statistical outlier factor, 3 standard
deviations. -/

def outlierK : ℚ := 3

/-- Modelled from the spec: maximal relative jump from the last accepted
interval, 20%. -/

def relativeJumpPct : ℚ := 1 / 5

/-- Modelled from the spec: acceptance test of the ArtifactRejector for
one RR interval, given the intervals accepted so far (`acc`, carrying the
running mean) and the last accepted interval (`last`): the interval must
lie within the hard bounds (checked through the helpers.ts
`isPhysiologicallyValid`), must not deviate from the running mean of the
accepted intervals by more than `outlierK` standard deviations (stated on
squares, both sides being nonnegative; inactive while nothing has been
accepted), and must not differ from the last accepted interval by more
than `relativeJumpPct` (missing concrete `removeArtifacts`). -/

def rrAccept (acc : List ℚ) (last : Option ℚ) (rr : ℚ) : Bool :=
  isPhysiologicallyValid rr minRR maxRR &&
    !(!acc.isEmpty &&
      decide (outlierK ^ 2 * variance acc < (rr - average acc) ^ 2)) &&
    !(match last with
      | none => false
      | some p => decide (relativeJumpPct * p < |rr - p|))

/-- Sequential scan of the ArtifactRejector, threading the last accepted
interval and the accepted-so-far list; rejected intervals are dropped and
leave the state unchanged. -/

def removeArtifactsAux : Option ℚ → List ℚ → List ℚ → List ℚ
  | _, _, [] => []
  | last, acc, rr :: rest =>
    if rrAccept acc last rr then
      rr :: removeArtifactsAux (some rr) (acc ++ [rr]) rest
    else
      removeArtifactsAux last acc rest

/-- Modelled from the spec: the ArtifactRejector, filtering the RR sequence
in order starting from an empty accepted state (missing concrete
`removeArtifacts`). -/

def removeArtifacts (rrs : List ℚ) : List ℚ :=
  removeArtifactsAux none [] rrs

/-- The removal condition exactly as the claim words it: outside
`[minRR, maxRR]`, or further than `outlierK` standard deviations from the
running mean of the accepted intervals, or more than `relativeJumpPct`
away from the last accepted interval. -/

def RemovalCondition (acc : List ℚ) (last : Option ℚ) (rr : ℚ) : Prop :=
  rr < minRR ∨ maxRR < rr ∨
    (acc ≠ [] ∧ outlierK ^ 2 * variance acc < (rr - average acc) ^ 2) ∨
    ∃ p, last = some p ∧ relativeJumpPct * p < |rr - p|

/-- Specification relation for the ArtifactRejector scan: an interval is
kept exactly when the removal condition fails; the last-accepted reference
and the running statistics advance only on acceptance, never on
rejection. -/

inductive ArtifactScan : Option ℚ → List ℚ → List ℚ → List ℚ → Prop where
  | nil (last : Option ℚ) (acc : List ℚ) : ArtifactScan last acc [] []
  | keep (last : Option ℚ) (acc : List ℚ) (rr : ℚ) (rest out : List ℚ)
      (hkeep : ¬RemovalCondition acc last rr)
      (htail : ArtifactScan (some rr) (acc ++ [rr]) rest out) :
      ArtifactScan last acc (rr :: rest) (rr :: out)
  | drop (last : Option ℚ) (acc : List ℚ) (rr : ℚ) (rest out : List ℚ)
      (hdrop : RemovalCondition acc last rr)
      (htail : ArtifactScan last acc rest out) :
      ArtifactScan last acc (rr :: rest) out

/-! ## JavaScriptHRVProcessor.processData (part_005) -/

/-- Structure `PPGDataBatch` of `react_native/src/types/index.ts`. -/

structure PPGDataBatch where
  sessionId : String
  deviceId : String
  dataPoints : List (ℕ × ℚ)
  sampleRate : ℚ
  startTime : ℕ
  endTime : ℕ
deriving DecidableEq

/-- Structure `HRVMetrics` of `react_native/src/types/index.ts`, restricted to the
fields the stub populates: the metric value and the result timestamp. -/

structure HRVMetrics where
  rmssd : ℚ
  timestamp : ℕ
deriving DecidableEq

/-- Embeds `JavaScriptHRVProcessor.processData` as implemented in the
source: every processing step is commented out and the function returns
`{ rmssd: 0, timestamp: Date.now() }`; the ambient clock read `Date.now()`
becomes the explicit parameter `now`. -/

def processData (data : PPGDataBatch) (now : ℕ) : HRVMetrics :=
  { rmssd := 0, timestamp := now }

/-! ## Theorems -/

theorem average_nil : average ([] : List ℚ) = 0 := rfl

theorem variance_nil : variance ([] : List ℚ) = 0 := rfl

theorem average_replicate (n : ℕ) (c : ℚ) (hn : n ≠ 0) :
    average (List.replicate n c) = c := by
  unfold average
  simp only [List.length_replicate, List.sum_replicate, nsmul_eq_mul]
  rw [if_neg hn]
  field_simp

theorem variance_replicate (n : ℕ) (c : ℚ) :
    variance (List.replicate n c) = 0 := by
  rcases Nat.eq_zero_or_pos n with h | h
  · subst h; rfl
  · unfold variance squareDiffs
    rw [average_replicate n c (Nat.pos_iff_ne_zero.mp h), List.map_replicate]
    simp [average]

/-- The helper `standardDeviation` always equals the square root of the rational
population variance (the empty-list guard agrees with `sqrt 0`). -/
theorem standardDeviation_eq_sqrt_variance (values : List ℚ) :
    standardDeviation values = Real.sqrt (variance values) := by
  unfold standardDeviation
  split
  · rename_i h
    rw [List.length_eq_zero.mp h, variance_nil]
    simp
  · rfl

theorem standardDeviation_replicate (n : ℕ) (c : ℚ) :
    standardDeviation (List.replicate n c) = 0 := by
  rw [standardDeviation_eq_sqrt_variance, variance_replicate]
  simp

/-- Comparing the standard deviation against a positive rational bound is
the same as comparing the rational variance against its square. -/
theorem standardDeviation_lt_iff (values : List ℚ) (c : ℚ) (hc : 0 < c) :
    standardDeviation values < (c : ℝ) ↔ variance values < c ^ 2 := by
  rw [standardDeviation_eq_sqrt_variance,
    Real.sqrt_lt' (by exact_mod_cast hc)]
  constructor
  · intro h; exact_mod_cast h
  · intro h; exact_mod_cast h

/-- The helper `average` agrees with the unguarded formula `sum / length` on every
list, because in the rational field division by zero returns zero. -/
theorem average_eq_sum_div (l : List ℚ) : average l = l.sum / l.length := by
  unfold average
  split
  · rename_i h; rw [h]; simp
  · rfl

theorem variance_eq_indexed_sum (values : List ℚ) :
    variance values =
      (∑ i : Fin values.length, (values.get i - average values) ^ 2) /
        values.length := by
  unfold variance
  rw [average_eq_sum_div]
  unfold squareDiffs
  rw [List.length_map]
  congr 1
  rw [← Fin.sum_univ_get' values fun value => (value - average values) ^ 2]
  apply Finset.sum_congr rfl
  intro i _
  simp [List.get_eq_getElem]

/-- C9: the statistics helpers are total — `average` returns 0 on the empty
list, `standardDeviation` returns 0 on the empty list and on every constant
list, and `standardDeviation` computes the population (divide-by-N) standard
deviation `sqrt((sum of (x - mean)^2) / N)`.  The divisions are guarded by
the explicit empty-list checks of helpers.ts, so no division by zero is
ever performed at the utility interface. -/
theorem helpers_stats_total :
    average [] = 0 ∧ standardDeviation [] = 0 ∧
    (∀ (n : ℕ) (c : ℚ), standardDeviation (List.replicate n c) = 0) ∧
    ∀ values : List ℚ,
      standardDeviation values =
        Real.sqrt (((∑ i : Fin values.length,
          (values.get i - average values) ^ 2) / values.length : ℚ)) := by
  refine ⟨average_nil, ?_, standardDeviation_replicate, ?_⟩
  · have := standardDeviation_replicate 0 0
    simpa using this
  · intro values
    rw [standardDeviation_eq_sqrt_variance, variance_eq_indexed_sum]

theorem ring_count_le (s : RingState) : s.count ≤ SAMPLE_BUFFER_SIZE - 1 := by
  unfold RingState.count SAMPLE_BUFFER_SIZE
  omega

theorem ring_push_wf (s : RingState) (x : ℕ) (h : s.WF) : (pushSample s x).WF := by
  obtain ⟨h1, h2⟩ := h
  unfold pushSample
  unfold RingState.WF SAMPLE_BUFFER_SIZE at *
  dsimp only
  split
  · exact ⟨Nat.mod_lt _ (by norm_num), h2⟩
  · exact ⟨h1, h2⟩

theorem ring_pop_wf (s : RingState) (h : s.WF) : (popSample s).2.WF := by
  obtain ⟨h1, h2⟩ := h
  unfold popSample
  unfold RingState.WF SAMPLE_BUFFER_SIZE at *
  split
  · exact ⟨h1, Nat.mod_lt _ (by norm_num)⟩
  · exact ⟨h1, h2⟩

theorem ring_full_iff (s : RingState) (h : s.WF) :
    s.count = SAMPLE_BUFFER_SIZE - 1 ↔
      (s.sampleHead + 1) % SAMPLE_BUFFER_SIZE = s.sampleTail := by
  obtain ⟨h1, h2⟩ := h
  unfold RingState.count
  unfold SAMPLE_BUFFER_SIZE at *
  omega

theorem ring_push_full (s : RingState) (x : ℕ) (h : s.WF)
    (hfull : s.count = SAMPLE_BUFFER_SIZE - 1) : pushSample s x = s := by
  have hn := (ring_full_iff s h).mp hfull
  unfold pushSample
  simp [hn]

theorem ring_push_not_full (s : RingState) (x : ℕ) (h : s.WF)
    (hnf : s.count < SAMPLE_BUFFER_SIZE - 1) :
    pushSample s x =
      { sampleBuffer := fun i =>
          if (i : ℕ) = s.sampleHead then x else s.sampleBuffer i
        sampleHead := (s.sampleHead + 1) % SAMPLE_BUFFER_SIZE
        sampleTail := s.sampleTail } := by
  obtain ⟨h1, h2⟩ := h
  have hn : (s.sampleHead + 1) % SAMPLE_BUFFER_SIZE ≠ s.sampleTail := by
    unfold RingState.count at hnf
    unfold SAMPLE_BUFFER_SIZE at *
    omega
  unfold pushSample
  simp [hn]

theorem ring_push_count (s : RingState) (x : ℕ) (h : s.WF)
    (hnf : s.count < SAMPLE_BUFFER_SIZE - 1) :
    (pushSample s x).count = s.count + 1 := by
  rw [ring_push_not_full s x h hnf]
  obtain ⟨h1, h2⟩ := h
  unfold RingState.count at *
  unfold SAMPLE_BUFFER_SIZE at *
  simp only
  omega

theorem ring_push_stored_intact (s : RingState) (x : ℕ) (h : s.WF)
    (j : Fin SAMPLE_BUFFER_SIZE)
    (hj : ((j : ℕ) + SAMPLE_BUFFER_SIZE - s.sampleTail) % SAMPLE_BUFFER_SIZE
      < s.count) :
    (pushSample s x).sampleBuffer j = s.sampleBuffer j := by
  rcases Nat.lt_or_ge s.count (SAMPLE_BUFFER_SIZE - 1) with hc | hc
  · rw [ring_push_not_full s x h hc]
    have hne : (j : ℕ) ≠ s.sampleHead := by
      intro hEq
      rw [hEq] at hj
      exact Nat.lt_irrefl _ hj
    simp [hne]
  · have : s.count = SAMPLE_BUFFER_SIZE - 1 :=
      Nat.le_antisymm (ring_count_le s) hc
    rw [ring_push_full s x h this]

/-- C10: the single-producer/single-consumer sample buffer of the ESP32
sketch keeps `sampleHead` and `sampleTail` inside `[0, SAMPLE_BUFFER_SIZE)`,
never stores more than `SAMPLE_BUFFER_SIZE - 1 = 63` samples (one slot
distinguishes full from empty), refuses a write into a full buffer — the
incoming sample is discarded and the state is untouched — and a push never
overwrites any slot still holding an unconsumed sample. -/
theorem sample_ring_invariant (s : RingState) (x : ℕ) (h : s.WF) :
    (pushSample s x).WF ∧ (popSample s).2.WF ∧
    s.count ≤ SAMPLE_BUFFER_SIZE - 1 ∧
    (s.count = SAMPLE_BUFFER_SIZE - 1 → pushSample s x = s) ∧
    ∀ j : Fin SAMPLE_BUFFER_SIZE,
      ((j : ℕ) + SAMPLE_BUFFER_SIZE - s.sampleTail) % SAMPLE_BUFFER_SIZE
          < s.count →
      (pushSample s x).sampleBuffer j = s.sampleBuffer j :=
  ⟨ring_push_wf s x h, ring_pop_wf s h, ring_count_le s,
    fun hfull => ring_push_full s x h hfull,
    fun j hj => ring_push_stored_intact s x h j hj⟩

theorem sample_ring_invariant_witness :
    (pushSample ⟨fun _ => 0, 3, 1⟩ 7).WF ∧
    (popSample ⟨fun _ => 0, 3, 1⟩).2.WF ∧
    RingState.count ⟨fun _ => 0, 3, 1⟩ ≤ SAMPLE_BUFFER_SIZE - 1 ∧
    (RingState.count ⟨fun _ => 0, 3, 1⟩ = SAMPLE_BUFFER_SIZE - 1 →
      pushSample ⟨fun _ => 0, 3, 1⟩ 7 = ⟨fun _ => 0, 3, 1⟩) ∧
    ∀ j : Fin SAMPLE_BUFFER_SIZE,
      ((j : ℕ) + SAMPLE_BUFFER_SIZE - 1) % SAMPLE_BUFFER_SIZE
          < RingState.count ⟨fun _ => 0, 3, 1⟩ →
      (pushSample ⟨fun _ => 0, 3, 1⟩ 7).sampleBuffer j =
        RingState.sampleBuffer ⟨fun _ => 0, 3, 1⟩ j :=
  sample_ring_invariant ⟨fun _ => 0, 3, 1⟩ 7 ⟨by decide, by decide⟩

/-- C5 counterexample: on the full state (head 63, tail 0, all slots 0) the
producer step of `readPulseSensor` leaves the state unchanged — the newest
sample 42 is never admitted anywhere and the oldest sample (slot 0) is not
evicted — refuting the claimed drop-oldest policy. -/
theorem ring_drop_oldest_counterexample :
    pushSample ⟨fun _ => 0, 63, 0⟩ 42 = ⟨fun _ => 0, 63, 0⟩ ∧
    (∀ i : Fin SAMPLE_BUFFER_SIZE,
      (pushSample ⟨fun _ => 0, 63, 0⟩ 42).sampleBuffer i ≠ 42) ∧
    (pushSample ⟨fun _ => 0, 63, 0⟩ 42).sampleBuffer ⟨0, by decide⟩ = 0 := by
  refine ⟨rfl, ?_, rfl⟩
  intro i
  show (0 : ℕ) ≠ 42
  norm_num

/-- C5 amended: the backpressure policy of the sample ring is drop-newest —
appending to a full ring discards the incoming sample and leaves every
stored sample intact, while appending to a non-full ring admits the sample
at the head slot and grows the count by one; in either case the producer is
never blocked, since the append is a total function that returns
immediately. -/
theorem ring_backpressure_drop_newest (s : RingState) (x : ℕ) (h : s.WF) :
    (s.count = SAMPLE_BUFFER_SIZE - 1 → pushSample s x = s) ∧
    (s.count < SAMPLE_BUFFER_SIZE - 1 →
      (pushSample s x).sampleBuffer
          ⟨s.sampleHead % SAMPLE_BUFFER_SIZE, Nat.mod_lt _ (by decide)⟩ = x ∧
      (pushSample s x).count = s.count + 1) := by
  refine ⟨fun hfull => ring_push_full s x h hfull, fun hnf => ⟨?_, ring_push_count s x h hnf⟩⟩
  rw [ring_push_not_full s x h hnf]
  have : s.sampleHead % SAMPLE_BUFFER_SIZE = s.sampleHead := Nat.mod_eq_of_lt h.1
  simp [this]

theorem ring_backpressure_drop_newest_witness :
    (RingState.count ⟨fun _ => 0, 63, 0⟩ = SAMPLE_BUFFER_SIZE - 1 →
      pushSample ⟨fun _ => 0, 63, 0⟩ 9 = ⟨fun _ => 0, 63, 0⟩) ∧
    (RingState.count ⟨fun _ => 0, 63, 0⟩ < SAMPLE_BUFFER_SIZE - 1 →
      (pushSample ⟨fun _ => 0, 63, 0⟩ 9).sampleBuffer
          ⟨63 % SAMPLE_BUFFER_SIZE, Nat.mod_lt _ (by decide)⟩ = 9 ∧
      (pushSample ⟨fun _ => 0, 63, 0⟩ 9).count =
        RingState.count ⟨fun _ => 0, 63, 0⟩ + 1) :=
  ring_backpressure_drop_newest ⟨fun _ => 0, 63, 0⟩ 9 ⟨by decide, by decide⟩

theorem flatlineBad_iff_std (seg : List ℚ) :
    flatlineBad seg = true ↔
      standardDeviation seg < (flatlineStdThreshold : ℝ) := by
  rw [flatlineBad, decide_eq_true_iff,
    standardDeviation_lt_iff seg flatlineStdThreshold (by norm_num [flatlineStdThreshold])]

theorem badSegmentsOf_eq_filter (results : List SegmentQualityResult) :
    badSegmentsOf results =
      (results.filter fun r => r.passed = false).length := by
  unfold badSegmentsOf
  rw [List.countP_eq_length_filter]
  congr 1
  apply List.filter_congr
  intro r _
  cases h : r.passed <;> simp [h]

theorem round_ge_three {q : ℚ} (h : 3 ≤ q) : (3 : ℤ) ≤ round q := by
  have h2 := abs_sub_round q
  rw [abs_le] at h2
  have hlb : (5 / 2 : ℚ) ≤ (round q : ℚ) := by linarith [h2.2]
  by_contra hc
  push_neg at hc
  have : (round q : ℚ) ≤ 2 := by
    exact_mod_cast Int.lt_add_one_iff.mp hc
  linarith

theorem segmentSampleCount_ge_three (rate : ℚ) (h1 : 1 ≤ rate) :
    3 ≤ segmentSampleCount rate := by
  unfold segmentSampleCount
  have h3 : (3 : ℤ) ≤ round (3 * rate) := round_ge_three (by linarith)
  omega

theorem segmentSampleCount_cast_le (rate : ℚ) (h1 : 1 ≤ rate) :
    (segmentSampleCount rate : ℚ) ≤ 10 * rate := by
  unfold segmentSampleCount
  have h3 : (3 : ℤ) ≤ round (3 * rate) := round_ge_three (by linarith)
  have habs := abs_sub_round (3 * rate)
  rw [abs_le] at habs
  have hub : ((round (3 * rate) : ℤ) : ℚ) ≤ 3 * rate + 1 / 2 := by
    linarith [habs.1]
  have hcast : (((round (3 * rate)).toNat : ℕ) : ℚ) =
      ((round (3 * rate) : ℤ) : ℚ) := by
    have := Int.toNat_of_nonneg (le_trans (by norm_num) h3)
    exact_mod_cast congrArg (fun z : ℤ => (z : ℚ)) this
  rw [hcast]
  linarith

theorem segmentize_replicate_length (n : ℕ) (c rate : ℚ) :
    (segmentize (List.replicate n c) rate).length =
      n / segmentSampleCount rate := by
  simp [segmentize]

theorem segment_count_pos (n : ℕ) (rate : ℚ) (h1 : 1 ≤ rate)
    (hn : rate * minDurationSeconds ≤ (n : ℚ)) :
    0 < n / segmentSampleCount rate := by
  have hk3 := segmentSampleCount_ge_three rate h1
  have hkn : segmentSampleCount rate ≤ n := by
    have hle := segmentSampleCount_cast_le rate h1
    have h10 : (10 : ℚ) * rate ≤ (n : ℚ) := by
      rw [minDurationSeconds] at hn; linarith
    exact_mod_cast le_trans hle h10
  exact Nat.div_pos hkn (by omega)

theorem segmentize_replicate_mem (n : ℕ) (c rate : ℚ) (seg : List ℚ)
    (hseg : seg ∈ segmentize (List.replicate n c) rate) :
    seg = List.replicate (segmentSampleCount rate) c := by
  unfold segmentize at hseg
  simp only [List.length_replicate, List.mem_map, List.mem_range] at hseg
  obtain ⟨i, hi, rfl⟩ := hseg
  have h1 : (i + 1) * segmentSampleCount rate ≤ n :=
    le_trans
      (Nat.mul_le_mul_right (segmentSampleCount rate) (Nat.succ_le_of_lt hi))
      (Nat.div_mul_le_self n (segmentSampleCount rate))
  have h2 : i * segmentSampleCount rate + segmentSampleCount rate ≤ n := by
    rw [add_mul, one_mul] at h1; exact h1
  rw [List.drop_replicate, List.take_replicate]
  congr 1
  omega

theorem flatlineBad_replicate (k : ℕ) (c : ℚ) :
    flatlineBad (List.replicate k c) = true := by
  simp [flatlineBad, variance_replicate, flatlineStdThreshold]

theorem analyzeSegments_length (countPeaks : List ℚ → ℕ)
    (segs : List (List ℚ)) :
    (analyzeSegments countPeaks segs).length = segs.length := by
  simp [analyzeSegments]

theorem analyzeSegments_replicate_fail (countPeaks : List ℚ → ℕ)
    (n : ℕ) (c rate : ℚ) (r : SegmentQualityResult)
    (hr : r ∈ analyzeSegments countPeaks (segmentize (List.replicate n c) rate)) :
    r.passed = false := by
  unfold analyzeSegments at hr
  simp only [List.mem_map] at hr
  obtain ⟨p, hp, rfl⟩ := hr
  have hseg : p.2 ∈ segmentize (List.replicate n c) rate :=
    List.getElem?_mem (List.mem_enum_iff_getElem?.mp hp)
  have hrep := segmentize_replicate_mem n c rate p.2 hseg
  show scoreSegment countPeaks p.2 = false
  rw [hrep, scoreSegment, flatlineBad_replicate]
  rfl

theorem badSegmentsOf_all_fail (results : List SegmentQualityResult)
    (hall : ∀ r ∈ results, r.passed = false) :
    badSegmentsOf results = results.length := by
  unfold badSegmentsOf
  rw [List.countP_eq_length]
  intro r hr
  rw [hall r hr]
  rfl

theorem flatline_gate_reject (countPeaks : List ℚ → ℕ) (n : ℕ) (c rate : ℚ)
    (h1 : 1 ≤ rate) (hn : rate * minDurationSeconds ≤ (n : ℚ)) :
    (qualityGate
      (analyzeSegments countPeaks (segmentize (List.replicate n c) rate))
      0).accepted = false := by
  have hbad : badSegmentsOf
      (analyzeSegments countPeaks (segmentize (List.replicate n c) rate)) =
      (analyzeSegments countPeaks (segmentize (List.replicate n c) rate)).length :=
    badSegmentsOf_all_fail _
      (fun r hr => analyzeSegments_replicate_fail countPeaks n c rate r hr)
  have hlen := analyzeSegments_length countPeaks
    (segmentize (List.replicate n c) rate)
  have hpos := segment_count_pos n rate h1 hn
  rw [segmentize_replicate_length] at hlen
  simp only [qualityGate, hbad, hlen]
  simp only [decide_eq_false_iff_not, not_le]
  omega

/-- C1: for every sequence of segment quality results and every configured
tolerance, `badSegments` equals the number of results with `passed = false`
and the gate accepts iff `badSegments ≤ maxBadSegments` (whose default is
0); when the gate rejects a window that passed configuration and duration
validation, the pipeline fails with a PoorSignalQualityError payload whose
`bad_segments` field carries that count and whose message names the count
and the threshold. -/
theorem quality_gate_rule (results : List SegmentQualityResult)
    (countPeaks : List ℚ → ℕ) (computeRmssd : List ℚ → Option ℚ)
    (ppgData : List ℚ) (rate : ℚ) (maxBad : ℕ)
    (hrate : 0 < rate ∧ rate ≤ 1000)
    (hdur : ¬(ppgData.length : ℚ) < rate * minDurationSeconds)
    (hrej : (qualityGate
      (analyzeSegments countPeaks (segmentize ppgData rate)) maxBad).accepted
        = false) :
    (qualityGate results maxBad).badSegmentCount =
      (results.filter fun r => r.passed = false).length ∧
    ((qualityGate results maxBad).accepted = true ↔
      (results.filter fun r => r.passed = false).length ≤ maxBad) ∧
    maxBadSegmentsDefault = 0 ∧
    runPipeline countPeaks computeRmssd ppgData rate maxBad =
      .error ⟨.poorSignalQuality,
        poorQualityMessage
          (badSegmentsOf (analyzeSegments countPeaks (segmentize ppgData rate)))
          maxBad,
        badSegmentsOf (analyzeSegments countPeaks (segmentize ppgData rate))⟩ := by
  refine ⟨by simp [qualityGate, badSegmentsOf_eq_filter], ?_, rfl, ?_⟩
  · rw [← badSegmentsOf_eq_filter]
    simp [qualityGate]
  · unfold runPipeline
    rw [if_neg (not_not_intro hrate), if_neg hdur]
    dsimp only
    rw [hrej]
    simp [qualityGate]

theorem quality_gate_rule_witness :
    (qualityGate [⟨0, false⟩, ⟨1, true⟩] 0).badSegmentCount =
      (([⟨0, false⟩, ⟨1, true⟩] : List SegmentQualityResult).filter
        fun r => r.passed = false).length ∧
    ((qualityGate [⟨0, false⟩, ⟨1, true⟩] 0).accepted = true ↔
      (([⟨0, false⟩, ⟨1, true⟩] : List SegmentQualityResult).filter
        fun r => r.passed = false).length ≤ 0) ∧
    maxBadSegmentsDefault = 0 ∧
    runPipeline (fun _ => 0) (fun _ => none) (List.replicate 12 5) 1 0 =
      .error ⟨.poorSignalQuality,
        poorQualityMessage
          (badSegmentsOf (analyzeSegments (fun _ => 0)
            (segmentize (List.replicate 12 5) 1))) 0,
        badSegmentsOf (analyzeSegments (fun _ => 0)
          (segmentize (List.replicate 12 5) 1))⟩ :=
  quality_gate_rule [⟨0, false⟩, ⟨1, true⟩] (fun _ => 0) (fun _ => none)
    (List.replicate 12 5) 1 0 ⟨by norm_num, by norm_num⟩
    (by norm_num [minDurationSeconds])
    (flatline_gate_reject (fun _ => 0) 12 5 1 (le_refl 1)
      (by norm_num [minDurationSeconds]))

/-- C2: on a constant-amplitude (flatline) window covering at least
`minDurationSeconds` at a sampling rate in `[1, 1000]`, every full
3-second segment has amplitude standard deviation 0 — below the flatline
threshold 1.0 — so every segment fails quality scoring, `badSegments`
equals the total segment count, and with `maxBadSegments = 0` the pipeline
rejects the window with a PoorSignalQualityError. -/
theorem flatline_always_rejected (countPeaks : List ℚ → ℕ)
    (computeRmssd : List ℚ → Option ℚ) (c : ℚ) (n : ℕ) (rate : ℚ)
    (h1 : 1 ≤ rate) (h2 : rate ≤ 1000)
    (hn : rate * minDurationSeconds ≤ (n : ℚ)) :
    (∀ seg ∈ segmentize (List.replicate n c) rate,
      standardDeviation seg = 0 ∧ flatlineBad seg = true) ∧
    (∀ r ∈ analyzeSegments countPeaks (segmentize (List.replicate n c) rate),
      r.passed = false) ∧
    badSegmentsOf
        (analyzeSegments countPeaks (segmentize (List.replicate n c) rate)) =
      (segmentize (List.replicate n c) rate).length ∧
    runPipeline countPeaks computeRmssd (List.replicate n c) rate 0 =
      .error ⟨.poorSignalQuality,
        poorQualityMessage (n / segmentSampleCount rate) 0,
        n / segmentSampleCount rate⟩ := by
  have hbad : badSegmentsOf
      (analyzeSegments countPeaks (segmentize (List.replicate n c) rate)) =
      (analyzeSegments countPeaks
        (segmentize (List.replicate n c) rate)).length :=
    badSegmentsOf_all_fail _
      (fun r hr => analyzeSegments_replicate_fail countPeaks n c rate r hr)
  have hlen : (analyzeSegments countPeaks
      (segmentize (List.replicate n c) rate)).length =
      n / segmentSampleCount rate := by
    rw [analyzeSegments_length, segmentize_replicate_length]
  refine ⟨?_, fun r hr => analyzeSegments_replicate_fail countPeaks n c rate r hr,
      by rw [hbad, hlen, segmentize_replicate_length], ?_⟩
  · intro seg hseg
    rw [segmentize_replicate_mem n c rate seg hseg]
    exact ⟨standardDeviation_replicate _ c, flatlineBad_replicate _ c⟩
  · have hdur : ¬(((List.replicate n c).length : ℚ) <
        rate * minDurationSeconds) := by
      rw [List.length_replicate]
      exact not_lt.mpr hn
    unfold runPipeline
    rw [if_neg (not_not_intro ⟨lt_of_lt_of_le zero_lt_one h1, h2⟩),
      if_neg hdur]
    dsimp only
    rw [flatline_gate_reject countPeaks n c rate h1 hn]
    simp only [Bool.false_eq_true, if_false]
    simp only [qualityGate, hbad, hlen]

theorem flatline_always_rejected_witness :
    (∀ seg ∈ segmentize (List.replicate 10 7) 1,
      standardDeviation seg = 0 ∧ flatlineBad seg = true) ∧
    (∀ r ∈ analyzeSegments (fun _ => 0) (segmentize (List.replicate 10 7) 1),
      r.passed = false) ∧
    badSegmentsOf
        (analyzeSegments (fun _ => 0) (segmentize (List.replicate 10 7) 1)) =
      (segmentize (List.replicate 10 7) 1).length ∧
    runPipeline (fun _ => 0) (fun _ => none) (List.replicate 10 7) 1 0 =
      .error ⟨.poorSignalQuality,
        poorQualityMessage (10 / segmentSampleCount 1) 0,
        10 / segmentSampleCount 1⟩ :=
  flatline_always_rejected (fun _ => 0) (fun _ => none) 7 10 1 (le_refl 1)
    (by norm_num) (by norm_num [minDurationSeconds])

/-- C6: with a valid sampling rate, the batch pipeline fails with an
InsufficientDataError exactly when the input covers less than
`minDurationSeconds` (10 s) of data, i.e. `sampleCount < samplingRate * 10`;
windows with at least that many samples pass the duration validation
stage. -/
theorem insufficient_data_iff (countPeaks : List ℚ → ℕ)
    (computeRmssd : List ℚ → Option ℚ) (ppgData : List ℚ) (rate : ℚ)
    (maxBad : ℕ) (hrate : 0 < rate ∧ rate ≤ 1000) :
    (∃ e : AnalyzeError,
      runPipeline countPeaks computeRmssd ppgData rate maxBad = .error e ∧
      e.kind = .insufficientData) ↔
    (ppgData.length : ℚ) < rate * minDurationSeconds := by
  unfold runPipeline
  rw [if_neg (not_not_intro hrate)]
  by_cases hd : (ppgData.length : ℚ) < rate * minDurationSeconds
  · rw [if_pos hd]
    exact iff_of_true ⟨_, rfl, rfl⟩ hd
  · rw [if_neg hd]
    dsimp only
    refine iff_of_false ?_ hd
    rintro ⟨e, he, hk⟩
    by_cases hacc : (qualityGate
        (analyzeSegments countPeaks (segmentize ppgData rate))
        maxBad).accepted = true
    · rw [if_pos hacc] at he
      rcases hm : computeRmssd ppgData with _ | r
      · rw [hm] at he
        obtain rfl := Except.error.inj he
        exact ErrorKind.noConfusion hk
      · rw [hm] at he
        exact Except.noConfusion he
    · rw [if_neg hacc] at he
      obtain rfl := Except.error.inj he
      exact ErrorKind.noConfusion hk

theorem insufficient_data_iff_witness :
    (∃ e : AnalyzeError,
      runPipeline (fun _ => 0) (fun _ => none) [] 100 0 = .error e ∧
      e.kind = .insufficientData) ↔
    ((([] : List ℚ).length : ℚ) < 100 * minDurationSeconds) :=
  insufficient_data_iff (fun _ => 0) (fun _ => none) [] 100 0
    (by norm_num)

/-- C4: raising the quality-gate tolerance never flips an accepted window
to rejected — if the pipeline succeeds at tolerance `k`, it returns the
very same result at every tolerance `k' ≥ k`, since the configuration and
duration checks ignore the tolerance and the gate's comparison
`badSegments ≤ maxBadSegments` is monotone in its bound. -/
theorem tolerance_monotone (countPeaks : List ℚ → ℕ)
    (computeRmssd : List ℚ → Option ℚ) (ppgData : List ℚ) (rate : ℚ)
    (k k' : ℕ) (hk : k ≤ k') (res : AnalyzeSuccess)
    (hok : runPipeline countPeaks computeRmssd ppgData rate k = .ok res) :
    runPipeline countPeaks computeRmssd ppgData rate k' = .ok res := by
  unfold runPipeline at hok ⊢
  split at hok
  · exact absurd hok (by simp)
  · rename_i hcfg
    split at hok
    · exact absurd hok (by simp)
    · rename_i hdur
      rw [if_neg hcfg, if_neg hdur]
      dsimp only at hok ⊢
      split at hok
      · rename_i hacc
        have hacc2 : (qualityGate
            (analyzeSegments countPeaks (segmentize ppgData rate))
            k').accepted = true := by
          simp only [qualityGate, decide_eq_true_iff] at hacc ⊢
          omega
        rw [if_pos hacc2]
        rcases hm : computeRmssd ppgData with _ | r
        · rw [hm] at hok
          exact Except.noConfusion hok
        · rw [hm] at hok
          obtain rfl := Except.ok.inj hok
          simp [qualityGate]
      · exact Except.noConfusion hok

theorem segmentSampleCount_one : segmentSampleCount 1 = 3 := by
  unfold segmentSampleCount
  rw [mul_one, round_ofNat]
  rfl

theorem flatline_accepted_at_tolerance (countPeaks : List ℚ → ℕ)
    (c : ℚ) (n : ℕ) (rate : ℚ) (h1 : 1 ≤ rate) (h2 : rate ≤ 1000)
    (hn : rate * minDurationSeconds ≤ (n : ℚ)) (k : ℕ)
    (hk : n / segmentSampleCount rate ≤ k) (r : ℚ) :
    runPipeline countPeaks (fun _ => some r) (List.replicate n c) rate k =
      .ok ⟨r, n / segmentSampleCount rate⟩ := by
  have hbad : badSegmentsOf
      (analyzeSegments countPeaks (segmentize (List.replicate n c) rate)) =
      (analyzeSegments countPeaks
        (segmentize (List.replicate n c) rate)).length :=
    badSegmentsOf_all_fail _
      (fun q hq => analyzeSegments_replicate_fail countPeaks n c rate q hq)
  have hlen : (analyzeSegments countPeaks
      (segmentize (List.replicate n c) rate)).length =
      n / segmentSampleCount rate := by
    rw [analyzeSegments_length, segmentize_replicate_length]
  have hdur : ¬(((List.replicate n c).length : ℚ) <
      rate * minDurationSeconds) := by
    rw [List.length_replicate]
    exact not_lt.mpr hn
  unfold runPipeline
  rw [if_neg (not_not_intro ⟨lt_of_lt_of_le zero_lt_one h1, h2⟩),
    if_neg hdur]
  dsimp only
  have hacc : (qualityGate
      (analyzeSegments countPeaks (segmentize (List.replicate n c) rate))
      k).accepted = true := by
    simp only [qualityGate, decide_eq_true_iff]
    rw [hbad, hlen]
    exact hk
  rw [if_pos hacc]
  simp [qualityGate, hbad, hlen]

theorem tolerance_monotone_witness :
    runPipeline (fun _ => 0) (fun _ => some 42) (List.replicate 12 5) 1 5 =
      .ok ⟨42, 12 / segmentSampleCount 1⟩ :=
  tolerance_monotone (fun _ => 0) (fun _ => some 42) (List.replicate 12 5) 1
    4 5 (by norm_num) ⟨42, 12 / segmentSampleCount 1⟩
    (flatline_accepted_at_tolerance (fun _ => 0) 5 12 1 (le_refl 1)
      (by norm_num) (by norm_num [minDurationSeconds]) 4
      (by rw [segmentSampleCount_one]) 42)

theorem calculateRRIntervals_length (ts : List ℚ) :
    (calculateRRIntervals ts).length = ts.length - 1 := by
  unfold calculateRRIntervals
  rw [List.length_zipWith, List.length_tail]
  omega

theorem calculateRRIntervals_get (ts : List ℚ) (i : ℕ) :
    (calculateRRIntervals ts)[i]? =
      (ts[i + 1]?).bind fun b => (ts[i]?).map fun a => b - a := by
  unfold calculateRRIntervals
  rw [List.getElem?_zipWith', List.getElem?_tail]
  cases h : ts[i + 1]? with
  | none => rfl
  | some b => rfl

theorem calculateRRIntervals_pos (ts : List ℚ) :
    List.Chain' (fun a b => a < b) ts →
      ∀ rr ∈ calculateRRIntervals ts, 0 < rr := by
  induction ts with
  | nil => intro _ rr hrr; simp [calculateRRIntervals] at hrr
  | cons a ts ih =>
    intro hch rr hrr
    cases ts with
    | nil => simp [calculateRRIntervals] at hrr
    | cons b rest =>
      rw [show calculateRRIntervals (a :: b :: rest) =
          (b - a) :: calculateRRIntervals (b :: rest) from rfl] at hrr
      rcases List.mem_cons.mp hrr with h | h
      · subst h
        have hab := (List.chain'_cons.mp hch).1
        linarith
      · exact ih (List.chain'_cons.mp hch).2 rr h

/-- C3: the RR sequence extracted from a peak-timestamp list has length
peakCount − 1 with `RR[i] = timestamp(peak[i+1]) − timestamp(peak[i])` in
milliseconds, preserving chronological order (for strictly increasing peak
timestamps every extracted interval is positive); in particular, peaks at
`[0, 800, 1600, 2400]` ms yield RR intervals `[800, 800, 800]` and
RMSSD = 0. -/
theorem interval_extractor_correct :
    (∀ ts : List ℚ, (calculateRRIntervals ts).length = ts.length - 1) ∧
    (∀ (ts : List ℚ) (i : ℕ),
      (calculateRRIntervals ts)[i]? =
        (ts[i + 1]?).bind fun b => (ts[i]?).map fun a => b - a) ∧
    (∀ ts : List ℚ, List.Chain' (fun a b => a < b) ts →
      ∀ rr ∈ calculateRRIntervals ts, 0 < rr) ∧
    calculateRRIntervals [0, 800, 1600, 2400] = [800, 800, 800] ∧
    calculateRMSSD [800, 800, 800] = 0 := by
  refine ⟨calculateRRIntervals_length, calculateRRIntervals_get,
    calculateRRIntervals_pos, by norm_num [calculateRRIntervals], ?_⟩
  have h : average ((successiveDiffs [800, 800, 800]).map fun d => d ^ 2)
      = 0 := by
    norm_num [successiveDiffs, average]
  rw [calculateRMSSD, h]
  simp

theorem interval_extractor_correct_witness :
    (∀ rr ∈ calculateRRIntervals [0, 800, 1600, 2400], 0 < rr) ∧
    calculateRRIntervals [0, 800, 1600, 2400] = [800, 800, 800] :=
  ⟨interval_extractor_correct.2.2.1 [0, 800, 1600, 2400]
      (by norm_num [List.chain'_cons]),
    interval_extractor_correct.2.2.2.1⟩

theorem rrAccept_iff (acc : List ℚ) (last : Option ℚ) (rr : ℚ) :
    rrAccept acc last rr = true ↔ ¬RemovalCondition acc last rr := by
  cases last with
  | none =>
    simp only [rrAccept, RemovalCondition, isPhysiologicallyValid,
      Bool.and_eq_true, Bool.not_eq_true', Bool.and_eq_false_iff,
      decide_eq_true_iff, decide_eq_false_iff_not, Bool.not_eq_false',
      List.isEmpty_iff, not_or, not_lt, not_exists]
    constructor
    · rintro ⟨⟨⟨hlo, hhi⟩, houtlier⟩, -⟩
      refine ⟨hlo, hhi, ?_, by simp⟩
      rintro ⟨hne, hvar⟩
      rcases houtlier with h | h
      · exact hne h
      · exact absurd hvar (not_lt.mpr h)
    · rintro ⟨hlo, hhi, houtlier, -⟩
      refine ⟨⟨⟨hlo, hhi⟩, ?_⟩, trivial⟩
      by_cases hne : acc = []
      · exact Or.inl hne
      · refine Or.inr (not_lt.mp ?_)
        intro hvar
        exact houtlier ⟨hne, hvar⟩
  | some p =>
    simp only [rrAccept, RemovalCondition, isPhysiologicallyValid,
      Bool.and_eq_true, Bool.not_eq_true', Bool.and_eq_false_iff,
      decide_eq_true_iff, decide_eq_false_iff_not, Bool.not_eq_false',
      List.isEmpty_iff, not_or, not_lt]
    constructor
    · rintro ⟨⟨⟨hlo, hhi⟩, houtlier⟩, hjump⟩
      refine ⟨hlo, hhi, ?_, ?_⟩
      · rintro ⟨hne, hvar⟩
        rcases houtlier with h | h
        · exact hne h
        · exact absurd hvar (not_lt.mpr h)
      · rintro ⟨q, hq, hlt⟩
        obtain rfl := Option.some.inj hq
        exact absurd hlt (not_lt.mpr hjump)
    · rintro ⟨hlo, hhi, houtlier, hjump⟩
      refine ⟨⟨⟨hlo, hhi⟩, ?_⟩, ?_⟩
      · by_cases hne : acc = []
        · exact Or.inl hne
        · refine Or.inr (not_lt.mp ?_)
          intro hvar
          exact houtlier ⟨hne, hvar⟩
      · refine not_lt.mp ?_
        intro hlt
        exact hjump ⟨p, rfl, hlt⟩

theorem removeArtifactsAux_scan (rrs : List ℚ) :
    ∀ (last : Option ℚ) (acc : List ℚ),
      ArtifactScan last acc rrs (removeArtifactsAux last acc rrs) := by
  induction rrs with
  | nil => intro last acc; exact .nil last acc
  | cons rr rest ih =>
    intro last acc
    unfold removeArtifactsAux
    by_cases h : rrAccept acc last rr = true
    · rw [if_pos h]
      exact .keep last acc rr rest _ ((rrAccept_iff acc last rr).mp h)
        (ih _ _)
    · rw [if_neg h]
      have hdrop : RemovalCondition acc last rr := by
        by_contra hc
        exact h ((rrAccept_iff acc last rr).mpr hc)
      exact .drop last acc rr rest _ hdrop (ih _ _)

theorem removeArtifactsAux_sublist (rrs : List ℚ) :
    ∀ (last : Option ℚ) (acc : List ℚ),
      (removeArtifactsAux last acc rrs).Sublist rrs := by
  induction rrs with
  | nil => intro _ _; exact List.Sublist.refl []
  | cons rr rest ih =>
    intro last acc
    unfold removeArtifactsAux
    split
    · exact List.Sublist.cons₂ rr (ih _ _)
    · exact List.Sublist.cons rr (ih _ _)

/-- C7: the ArtifactRejector scans the RR sequence in order, and an
interval is removed exactly when it lies outside `[300, 2000]` ms, or
deviates from the running mean by more than 3 standard deviations, or
differs from the last accepted interval by more than 20%, the
last-accepted reference advancing only on acceptance; rejected intervals
are dropped, never interpolated — the output is a sublist of the input —
and an empty result is an ordinary value, not an error, as witnessed by
the single out-of-range interval `[100]` filtering to `[]`. -/
theorem artifact_rejector_spec (rrs : List ℚ) :
    ArtifactScan none [] rrs (removeArtifacts rrs) ∧
    (removeArtifacts rrs).Sublist rrs ∧
    (∀ (acc : List ℚ) (last : Option ℚ) (rr : ℚ),
      rrAccept acc last rr = true ↔ ¬RemovalCondition acc last rr) ∧
    removeArtifacts [100] = [] := by
  refine ⟨removeArtifactsAux_scan rrs none [],
    removeArtifactsAux_sublist rrs none [],
    fun acc last rr => rrAccept_iff acc last rr, ?_⟩
  have h100 : rrAccept [] none 100 = false := by
    simp only [rrAccept, isPhysiologicallyValid, minRR, maxRR,
      Bool.and_eq_false_iff, decide_eq_false_iff_not, not_le]
    left; left; left
    norm_num
  unfold removeArtifacts removeArtifactsAux
  rw [if_neg (by rw [h100]; exact Bool.false_ne_true)]
  rfl

/-- C8 counterexample: two runs of `processData` on the identical input
batch at different clock instants produce different results — the
`timestamp` field records the wall clock — so the output is not
byte-identical and not a pure function of input plus configuration. -/
theorem pipeline_idempotence_counterexample :
    processData ⟨"s", "d", [], 100, 0, 0⟩ 1 ≠
      processData ⟨"s", "d", [], 100, 0, 0⟩ 2 := by
  intro h
  have h2 := congrArg HRVMetrics.timestamp h
  simp only [processData] at h2
  exact absurd h2 (by norm_num)

/-- C8 amended: the metric content of a `processData` result is a pure
function of the input batch — identical inputs give identical `rmssd`
whenever they run — but the result's `timestamp` field records the clock
at invocation time, so two complete results are byte-identical exactly
when the clock reads coincide. -/
theorem processData_pure_except_timestamp (d : PPGDataBatch) (t1 t2 : ℕ) :
    (processData d t1).rmssd = (processData d t2).rmssd ∧
    (processData d t1 = processData d t2 ↔ t1 = t2) := by
  refine ⟨rfl, ?_, ?_⟩
  · intro h
    exact congrArg HRVMetrics.timestamp h
  · intro h
    rw [h]

end Capstone
